import Mathlib

/-
  Verification of the mlcp (Music Library Crud Purge) core against its
  natural-language specification.

  The definitions below are a shallow embedding of `src/main.rs`:
  * classification data (extension catalogs, art-file list, keep-extension
    list, actual-extension intersection, purge-file list),
  * the resource-fork test,
  * the glob-based path enumeration, and
  * the backup/purge executor, modelled as explicit state passing over a
    finite filesystem state.

  Rust strings are modelled as Lean `String` (`str::len` is the UTF-8 byte
  count, modelled by `utf8Length`; `str::to_lowercase` is modelled by
  `String.toLower`, which lowercases the ASCII range — all catalog entries
  are ASCII).  Paths handed to the executor are modelled as lists of
  component names.
-/

namespace Mlcp

/-! ## Static catalogs (constants from src/main.rs) -/

/-- File extensions typically associated with music/album files. -/
def MUSIC_FILE_TYPES : List String := [
  "aac", "aiff", "ape", "dff", "dsd", "dsf", "dxd", "flac", "iso", "m4a",
  "m4p", "mp3", "oga", "ogg", "wav", "wma", "wmv"
]

/-- File extensions typically associated with non-music audio files. -/
def AUDIO_FILE_TYPES : List String := [
  "3gp", "aa", "aax", "act", "amr", "au", "awb", "dct", "dss", "dvf", "gsm", "iklax", "ivs",
  "m4b", "mmf", "mpc", "msv", "mogg", "opus", "ra", "rm", "raw", "sln", "tta", "vox", "wmv", "wv", "webm"
]

/-- Common document/booklet file extensions. -/
def DOCUMENT_FILE_TYPES : List String := ["txt", "pdf"]

/-- Album art filenames (folder level). -/
def ALBUM_ART_FILENAMES : List String := ["album", "cover", "small_cover", "large_cover", "folder",
  "thumb", "albumartsmall", "albumartmedium", "albumartlarge"
]

/-- Album art extensions (folder level). -/
def ALBUM_ART_EXTENSIONS : List String := ["jpg", "jpeg", "png"]

def NO_PATH : String := ""
def NO_EXTENSION : String := ""
def NO_FILE_NAME : String := ""
def NO_CHAR : Char := ' '

/-- Resource fork character 1 (i.e. the "." of "._"). -/
def RES_FORK_1 : Char := '.'
/-- Resource fork character 2 (i.e. the "_" of "._"). -/
def RES_FORK_2 : Char := '_'

/-! ## String utilities -/

/-- Models `opt_osstr_to_string`: unwrap an optional string, providing the
default when absent (the lossy UTF-8 conversion is the identity in the
model, where all strings are already Unicode). -/
def opt_osstr_to_string (opt : Option String) (dflt : String) : String :=
  opt.getD dflt

/-- Models Rust `str::len`: the length of the string in UTF-8 bytes. -/
def utf8Length (s : String) : Nat :=
  (s.data.map Char.utf8Size).sum

/-- Models Rust `str::to_lowercase`, character by character.  All the
catalog entries and the name fragments the tool compares against them are
ASCII, where `Char.toLower` agrees with Rust's Unicode lowercasing. -/
def to_lowercase (s : String) : String :=
  String.mk (s.data.map Char.toLower)

/-- Models `is_resource_fork` from src/main.rs: the byte-length guard
followed by the two per-codepoint comparisons (`chars().nth(i)` with the
`NO_CHAR` default standing for `unwrap_or`). -/
def is_resource_fork (file_name : String) : Bool :=
  if utf8Length file_name < 2 then false
  else if (file_name.data.getD 0 NO_CHAR) ≠ RES_FORK_1 then false
  else if (file_name.data.getD 1 NO_CHAR) ≠ RES_FORK_2 then false
  else true

/-! ## Path name / extension semantics (Rust `std::path`) -/

/-- The characters after the last `'.'` of the list, or `none` when the
list contains no `'.'`. -/
def afterLastDot : List Char → Option (List Char)
  | [] => none
  | c :: cs =>
    match afterLastDot cs with
    | some e => some e
    | none => if c = '.' then some cs else none

/-- Models Rust `Path::extension` applied to a base name: the portion of
the name after the final `'.'`, except that a name whose only `'.'` is its
leading character (e.g. `".gitignore"`, `"._foo"`) has no extension. -/
def path_extension (name : String) : Option String :=
  match name.data with
  | [] => none
  | c :: cs =>
    if c = '.' then (afterLastDot cs).map (fun l => String.mk l)
    else (afterLastDot (c :: cs)).map (fun l => String.mk l)

/-! ## File entries

A library entry as produced by the glob enumeration: its path (a list of
name components, relative to the library root's parent) and whether the
filesystem reports it as a directory.  `build_purge_file_list` only reads
an entry's base name, extension and directory flag, which are derived
below exactly as the Rust code derives them from a `PathBuf`. -/

structure FileEntry where
  path : List String
  isDir : Bool
deriving DecidableEq, Repr

/-- Models `opt_osstr_to_string(file.file_name(), NO_FILE_NAME)`: the final
path component, with the empty-string default when the path has none
(glob output components are literal names, so `Path::file_name` is the
last component whenever one exists). -/
def file_name (e : FileEntry) : String :=
  e.path.getLastD NO_FILE_NAME

/-- The lowercased extension of an entry, exactly the expression
`opt_osstr_to_string(file.extension(), NO_EXTENSION).to_lowercase()`
appearing in `get_actual_extensions` and `build_purge_file_list`. -/
def lc_ext (e : FileEntry) : String :=
  to_lowercase (opt_osstr_to_string (path_extension (file_name e)) NO_EXTENSION)

/-! ## Keep lists -/

/-- Models `build_keep_art_file_list`: empty when deleting art, otherwise
every `name ++ "." ++ ext` over the art filename × art extension cross
product, filenames outermost, exactly as the two nested loops produce. -/
def build_keep_art_file_list (delete_art : Bool) : List String :=
  if delete_art then []
  else ALBUM_ART_FILENAMES.flatMap (fun fname =>
    ALBUM_ART_EXTENSIONS.map (fun ext => fname ++ "." ++ ext))

/-- Models `build_keep_extensions_list`: music extensions always, audio
extensions when keeping other audio, document extensions when keeping
documents, in the loop order of the source. -/
def build_keep_extensions_list (keep_other_audio keep_documents : Bool) : List String :=
  MUSIC_FILE_TYPES
    ++ (if keep_other_audio then AUDIO_FILE_TYPES else [])
    ++ (if keep_documents then DOCUMENT_FILE_TYPES else [])

/-- The loop body of `get_actual_extensions`: walk the library entries,
appending each entry's lowercase extension to the accumulator when it is
on the keep list and not yet collected. -/
def actual_extensions_go (keep_extensions : List String) :
    List FileEntry → List String → List String
  | [], extensions => extensions
  | file :: rest, extensions =>
    let extension := lc_ext file
    if extension ∉ extensions ∧ extension ∈ keep_extensions then
      actual_extensions_go keep_extensions rest (extensions ++ [extension])
    else
      actual_extensions_go keep_extensions rest extensions

/-- Models `get_actual_extensions`: the keep-extensions intersected with
the extensions actually present among the library paths, in order of first
occurrence. -/
def get_actual_extensions (library_paths : List FileEntry)
    (keep_other_audio keep_documents : Bool) : List String :=
  actual_extensions_go
    (build_keep_extensions_list keep_other_audio keep_documents) library_paths []

/-! ## The classifier -/

/-- The per-entry decision of the loop body of `build_purge_file_list`:
skip directories, skip resource forks, skip kept art names, skip kept
extensions; everything else is pushed onto the purge list. -/
def purge_pred (art_file_list actual_extensions : List String) (file : FileEntry) : Bool :=
  if file.isDir then false
  else if is_resource_fork (file_name file) then false
  else if to_lowercase (file_name file) ∈ art_file_list then false
  else if lc_ext file ∈ actual_extensions then false
  else true

/-- Models `build_purge_file_list` from src/main.rs. -/
def build_purge_file_list (library_paths : List FileEntry)
    (delete_art keep_other_audio keep_documents : Bool) : List FileEntry :=
  let art_file_list := build_keep_art_file_list delete_art
  let actual_extensions :=
    get_actual_extensions library_paths keep_other_audio keep_documents
  library_paths.filter (purge_pred art_file_list actual_extensions)

/-- Modelled from the spec's words, for the refinement comparison of C7:
the same classification but testing extensions against the un-intersected
keep-extension list instead of `get_actual_extensions`. -/
def build_purge_file_list_uninter (library_paths : List FileEntry)
    (delete_art keep_other_audio keep_documents : Bool) : List FileEntry :=
  library_paths.filter (purge_pred (build_keep_art_file_list delete_art)
    (build_keep_extensions_list keep_other_audio keep_documents))

/-! ## Path enumeration (glob)

`get_library_paths` enumerates with the glob pattern `root/**/*.*`
(`WILDCARD` in src/main.rs).  The recursive `**` component matches any
chain of parent directories, so an entry at any depth is returned exactly
when its base name matches the single-component pattern `*.*`.  The
matcher below models the glob crate's semantics for such patterns: `*`
matches any (possibly empty) run of characters of one name, and the
default match options place no restriction on a leading dot. -/

inductive GlobTok where
  | star : GlobTok
  | lit : Char → GlobTok
deriving DecidableEq, Repr

/-- Single-component glob matching: a literal consumes one equal
character, and `*` matches an arbitrary (possibly empty) run, i.e. the
rest of the pattern may resume at any suffix of the name. -/
def globMatch : List GlobTok → List Char → Bool
  | [], cs => cs.isEmpty
  | GlobTok.lit _ :: _, [] => false
  | GlobTok.lit c :: ps, x :: xs => x == c && globMatch ps xs
  | GlobTok.star :: ps, cs => cs.tails.any (fun suf => globMatch ps suf)

/-- The base-name part `*.*` of `WILDCARD = "**/*.*"`. -/
def WILDCARD_NAME_PATTERN : List GlobTok :=
  [GlobTok.star, GlobTok.lit '.', GlobTok.star]

/-- Models `get_library_paths`: of all entries under the library root, the
glob returns those whose base name matches `*.*`, in enumeration order. -/
def get_library_paths (entries : List FileEntry) : List FileEntry :=
  entries.filter (fun e => globMatch WILDCARD_NAME_PATTERN (file_name e).data)

/-! ## Filesystem state and the backup/purge executor

Paths are lists of component names; the empty list denotes the process's
current directory (for which Rust's `Path::new("").exists()` reports
`false`, while writing a file directly in it needs no directory
creation).  The filesystem state is finite: a file table (path ↦
contents), the set of existing directories, and the set of paths the OS
refuses to delete (modelling permission errors, the non-existence-related
way `fs::remove_file` can fail). -/

abbrev FPath := List String

structure FS where
  files : List (FPath × String)
  dirs : List FPath
  undeletable : List FPath
deriving DecidableEq, Repr

/-- The contents of the file at `p`, if one exists. -/
def FS.lookupFile (fs : FS) (p : FPath) : Option String :=
  (fs.files.find? (fun kv => kv.1 == p)).map (fun kv => kv.2)

def FS.isFile (fs : FS) (p : FPath) : Bool :=
  (fs.lookupFile p).isSome

def FS.isDir (fs : FS) (p : FPath) : Bool :=
  fs.dirs.contains p

/-- Models `Path::exists`: something (file or directory) is at `p`.  The
current directory `[]` is reported as absent, matching
`Path::new("").exists() == false`. -/
def FS.pathExists (fs : FS) (p : FPath) : Bool :=
  fs.isFile p || fs.isDir p

/-- Overwrite-or-insert a file entry. -/
def setFile (files : List (FPath × String)) (p : FPath) (c : String) :
    List (FPath × String) :=
  (p, c) :: files.filter (fun kv => !(kv.1 == p))

/-- Models `Path::parent().unwrap()` on a component list: all but the last
component.  (Rust would panic on the empty path; the executor only takes
parents of paths it just joined onto an existing backup root.) -/
def parentDir (p : FPath) : FPath :=
  p.dropLast

/-- Every `take`-prefix of `p`, from `[]` up to `p` itself. -/
def prefixesOf (p : FPath) : List FPath :=
  (List.range (p.length + 1)).map (fun n => p.take n)

/-- Models `std::fs::copy src tgt`: fails when `src` is not an existing
file, when the target's parent directory does not exist (the current
directory `[]` always does), or when a directory sits at `tgt`; otherwise
writes the contents of `src` at `tgt`. -/
def fsCopy (fs : FS) (src tgt : FPath) : Except Unit Unit × FS :=
  match fs.lookupFile src with
  | none => (Except.error (), fs)
  | some c =>
    if (parentDir tgt = [] ∨ fs.isDir (parentDir tgt) = true) ∧ fs.isDir tgt = false then
      (Except.ok (), { fs with files := setFile fs.files tgt c })
    else (Except.error (), fs)

/-- Models `std::fs::remove_file`: fails when `p` is not an existing file
or when the OS forbids its deletion; otherwise drops the file. -/
def fsRemoveFile (fs : FS) (p : FPath) : Except Unit Unit × FS :=
  if fs.isFile p = true ∧ p ∉ fs.undeletable then
    (Except.ok (), { fs with files := fs.files.filter (fun kv => !(kv.1 == p)) })
  else (Except.error (), fs)

/-- Models `std::fs::create_dir_all`: succeeds on the empty path without
touching anything (as `create_dir_all("")` does), fails when a file
occupies `p` or one of its ancestors, and otherwise records `p` and all
its ancestors as directories. -/
def fsCreateDirAll (fs : FS) (p : FPath) : Except Unit Unit × FS :=
  if p = [] then (Except.ok (), fs)
  else if (prefixesOf p).any (fun q => fs.isFile q) then (Except.error (), fs)
  else (Except.ok (), { fs with dirs := prefixesOf p ++ fs.dirs })

/-- Models `Path::strip_prefix` on component lists: the remainder when
`base` is a componentwise prefix, and `none` (Rust's `Err`) otherwise. -/
def stripPrefixOf (p base : FPath) : Option FPath :=
  if base.isPrefixOf p then some (p.drop base.length) else none

/-- Models `backup_file` from src/main.rs: compute the mirrored target by
stripping the library root (`unwrap_or` the empty relative path) and
joining onto the backup root; create the target's directory if it does not
exist; then copy, returning the target path on success and the attempted
path on failure. -/
def backup_file (path library_path backup_path : FPath) (fs : FS) :
    Except FPath FPath × FS :=
  let relative_source_path := (stripPrefixOf path library_path).getD []
  let target_path := backup_path ++ relative_source_path
  let target_dir := parentDir target_path
  if fs.pathExists target_dir = false then
    match fsCreateDirAll fs target_dir with
    | (Except.error _, fs1) => (Except.error target_dir, fs1)
    | (Except.ok _, fs1) =>
      match fsCopy fs1 path target_path with
      | (Except.ok _, fs2) => (Except.ok target_path, fs2)
      | (Except.error _, fs2) => (Except.error target_path, fs2)
  else
    match fsCopy fs path target_path with
    | (Except.ok _, fs2) => (Except.ok target_path, fs2)
    | (Except.error _, fs2) => (Except.error target_path, fs2)

/-- Models `purge_or_backup_file` from src/main.rs: back the file up first
when both backup and purge are requested (propagating a backup failure
immediately), then delete the original when purging, and otherwise do
nothing and report success. -/
def purge_or_backup_file (path library_path backup_path : FPath)
    (backup purge : Bool) (fs : FS) : Except FPath FPath × FS :=
  if backup && purge then
    match backup_file path library_path backup_path fs with
    | (Except.error _, fs1) => (Except.error path, fs1)
    | (Except.ok _, fs1) =>
      if purge then
        match fsRemoveFile fs1 path with
        | (Except.error _, fs2) => (Except.error path, fs2)
        | (Except.ok _, fs2) => (Except.ok path, fs2)
      else (Except.ok path, fs1)
  else
    if purge then
      match fsRemoveFile fs path with
      | (Except.error _, fs2) => (Except.error path, fs2)
      | (Except.ok _, fs2) => (Except.ok path, fs2)
    else (Except.ok path, fs)

/-! ## Lemmas about `get_actual_extensions` -/

/-- Everything collected by the intersection loop was either already in
the accumulator or comes from the keep list. -/
theorem actual_extensions_go_sub (keep : List String) (ps : List FileEntry)
    (acc : List String) (s : String) (hs : s ∈ actual_extensions_go keep ps acc) :
    s ∈ acc ∨ s ∈ keep := by
  induction ps generalizing acc with
  | nil => exact Or.inl hs
  | cons f rest ih =>
    simp only [actual_extensions_go] at hs
    split at hs
    · rename_i h
      rcases ih _ hs with h1 | h1
      · rcases List.mem_append.1 h1 with h2 | h2
        · exact Or.inl h2
        · exact Or.inr (List.mem_singleton.1 h2 ▸ h.2)
      · exact Or.inr h1
    · exact ih _ hs

/-- The intersection loop never drops accumulated extensions. -/
theorem actual_extensions_go_mono (keep : List String) (ps : List FileEntry)
    (acc : List String) (s : String) (hs : s ∈ acc) :
    s ∈ actual_extensions_go keep ps acc := by
  induction ps generalizing acc with
  | nil => exact hs
  | cons f rest ih =>
    simp only [actual_extensions_go]
    split
    · exact ih _ (List.mem_append.2 (Or.inl hs))
    · exact ih _ hs

/-- Any processed entry whose lowercase extension is on the keep list ends
up represented in the collected intersection. -/
theorem actual_extensions_go_mem (keep : List String) (ps : List FileEntry)
    (acc : List String) (x : FileEntry) (hx : x ∈ ps) (hk : lc_ext x ∈ keep) :
    lc_ext x ∈ actual_extensions_go keep ps acc := by
  induction ps generalizing acc with
  | nil => cases hx
  | cons f rest ih =>
    simp only [actual_extensions_go]
    rcases List.mem_cons.1 hx with heq | hx'
    · subst heq
      split
      · exact actual_extensions_go_mono _ _ _ _
          (List.mem_append.2 (Or.inr (List.mem_singleton.2 rfl)))
      · rename_i h
        have hacc : lc_ext x ∈ acc := by
          by_contra hc
          exact h ⟨hc, hk⟩
        exact actual_extensions_go_mono _ _ _ _ hacc
    · split
      · exact ih _ hx'
      · exact ih _ hx'

/-- For an entry of the library, membership of its lowercase extension in
the intersected extension list agrees with membership in the full
keep-extension list. -/
theorem mem_get_actual_extensions_iff (ps : List FileEntry) (ko kd : Bool)
    (x : FileEntry) (hx : x ∈ ps) :
    lc_ext x ∈ get_actual_extensions ps ko kd ↔
      lc_ext x ∈ build_keep_extensions_list ko kd := by
  constructor
  · intro h
    rcases actual_extensions_go_sub _ _ _ _ h with h1 | h1
    · cases h1
    · exact h1
  · intro h
    exact actual_extensions_go_mem _ _ _ _ hx h

/-! ## Lemmas about the classifier -/

/-- The classifier's per-entry test, written as a conjunction. -/
theorem purge_pred_eq_true (art act : List String) (x : FileEntry) :
    purge_pred art act x = true ↔
      x.isDir = false ∧ is_resource_fork (file_name x) = false ∧
        to_lowercase (file_name x) ∉ art ∧ lc_ext x ∉ act := by
  unfold purge_pred
  by_cases h1 : x.isDir = true <;> by_cases h2 : is_resource_fork (file_name x) = true <;>
    by_cases h3 : to_lowercase (file_name x) ∈ art <;> by_cases h4 : lc_ext x ∈ act <;>
      simp [h1, h2, h3, h4]

/-! ## Lemmas about the glob matcher -/

/-- A trailing `*` matches any remainder of the name. -/
theorem globMatch_star (cs : List Char) :
    globMatch [GlobTok.star] cs = true := by
  simp only [globMatch, List.any_eq_true]
  exact ⟨[], (List.mem_tails _ _).2 List.nil_suffix, rfl⟩

/-- The name pattern `*.*` matches exactly the names containing a dot. -/
theorem globMatch_wildcard_iff (cs : List Char) :
    globMatch WILDCARD_NAME_PATTERN cs = true ↔ '.' ∈ cs := by
  unfold WILDCARD_NAME_PATTERN
  simp only [globMatch, List.any_eq_true]
  constructor
  · rintro ⟨suf, hsuf, hm⟩
    cases suf with
    | nil => simp [globMatch] at hm
    | cons c rest =>
      simp only [globMatch, Bool.and_eq_true, beq_iff_eq] at hm
      obtain ⟨hc, -⟩ := hm
      subst hc
      exact ((List.mem_tails _ _).1 hsuf).subset (List.mem_cons_self _ _)
  · intro h
    obtain ⟨s, t, rfl⟩ := List.append_of_mem h
    refine ⟨'.' :: t, (List.mem_tails _ _).2 ⟨s, rfl⟩, ?_⟩
    simp only [globMatch, Bool.and_eq_true, beq_iff_eq]
    exact ⟨trivial, globMatch_star t⟩

/-! ## Claim theorems -/

/-- C1: for every library-entry list and policy, an entry of the list is
placed on the purge list by `build_purge_file_list` iff it is not a
directory, its base name is not a resource fork, its lowercase base name
is not on the kept-art list, and its lowercase extension is not on the
kept-extension list; in particular every enumerated entry falls on exactly
one side of keep/purge. -/
theorem mem_build_purge_file_list_iff (library_paths : List FileEntry)
    (delete_art keep_other_audio keep_documents : Bool) (x : FileEntry)
    (hx : x ∈ library_paths) :
    x ∈ build_purge_file_list library_paths delete_art keep_other_audio keep_documents ↔
      (x.isDir = false ∧ is_resource_fork (file_name x) = false ∧
        to_lowercase (file_name x) ∉ build_keep_art_file_list delete_art ∧
        lc_ext x ∉ build_keep_extensions_list keep_other_audio keep_documents) := by
  have hact :=
    mem_get_actual_extensions_iff library_paths keep_other_audio keep_documents x hx
  simp only [build_purge_file_list]
  rw [List.mem_filter, purge_pred_eq_true]
  constructor
  · rintro ⟨-, h1, h2, h3, h4⟩
    exact ⟨h1, h2, h3, fun hc => h4 (hact.2 hc)⟩
  · rintro ⟨h1, h2, h3, h4⟩
    exact ⟨hx, h1, h2, h3, fun hc => h4 (hact.1 hc)⟩

/-- Witness for C1 at a concrete input: in a two-file library with every
keep flag off, `audio.au` satisfies the iff. -/
theorem mem_build_purge_file_list_iff_witness :
    (FileEntry.mk ["audio.au"] false) ∈
        [FileEntry.mk ["music.mp3"] false, FileEntry.mk ["audio.au"] false] ∧
      ((FileEntry.mk ["audio.au"] false) ∈
          build_purge_file_list
            [FileEntry.mk ["music.mp3"] false, FileEntry.mk ["audio.au"] false]
            false false false ↔
        ((FileEntry.mk ["audio.au"] false).isDir = false ∧
          is_resource_fork (file_name (FileEntry.mk ["audio.au"] false)) = false ∧
          to_lowercase (file_name (FileEntry.mk ["audio.au"] false)) ∉
            build_keep_art_file_list false ∧
          lc_ext (FileEntry.mk ["audio.au"] false) ∉
            build_keep_extensions_list false false)) :=
  ⟨by decide,
    mem_build_purge_file_list_iff
      [FileEntry.mk ["music.mp3"] false, FileEntry.mk ["audio.au"] false]
      false false false (FileEntry.mk ["audio.au"] false) (by decide)⟩

/-- C7: classifying against the extension set intersected with the
extensions actually observed in the library yields exactly the same purge
list as classifying against the un-intersected keep-extension list. -/
theorem build_purge_file_list_eq_uninter (library_paths : List FileEntry)
    (delete_art keep_other_audio keep_documents : Bool) :
    build_purge_file_list library_paths delete_art keep_other_audio keep_documents =
      build_purge_file_list_uninter library_paths delete_art keep_other_audio
        keep_documents := by
  simp only [build_purge_file_list, build_purge_file_list_uninter]
  apply List.filter_congr
  intro x hx
  have hact :=
    mem_get_actual_extensions_iff library_paths keep_other_audio keep_documents x hx
  simp only [purge_pred, hact]

/-- C9: in the four-file example library, with other-audio and documents
not kept and folder-art keeping disabled (the `art` flag set, i.e. all
keep behaviour off), exactly `audio.au`, `doc.txt` and `album.jpg` are
purged and `music.mp3` is kept. -/
theorem build_purge_file_list_example :
    (build_purge_file_list
      [FileEntry.mk ["music.mp3"] false, FileEntry.mk ["audio.au"] false,
        FileEntry.mk ["doc.txt"] false, FileEntry.mk ["album.jpg"] false]
      true false false).map file_name = ["audio.au", "doc.txt", "album.jpg"] := by
  decide

/-- C8 counterexample: with other audio kept, the keep-extension list is
not duplicate-free ("wmv" is listed among both the music types and the
other-audio types). -/
theorem build_keep_extensions_list_not_nodup :
    ¬ (build_keep_extensions_list true false).Nodup := by decide

/-- C8 amended: the size of the keep-extension list is the music count
(17) plus 28 when other audio is kept plus 2 when documents are kept, and
it is duplicate-free exactly when other audio is not kept — when other
audio is kept, "wmv" occurs twice. -/
theorem build_keep_extensions_list_size (keep_other_audio keep_documents : Bool) :
    ((build_keep_extensions_list keep_other_audio keep_documents).length =
        17 + (if keep_other_audio then 28 else 0) +
          (if keep_documents then 2 else 0)) ∧
      ((build_keep_extensions_list keep_other_audio keep_documents).Nodup ↔
        keep_other_audio = false) ∧
      ((build_keep_extensions_list keep_other_audio keep_documents).count "wmv" =
        if keep_other_audio then 2 else 1) := by
  cases keep_other_audio <;> cases keep_documents <;>
    exact ⟨by decide, by decide, by decide⟩

/-- C4 counterexample: a file whose base name contains no '.' character
(here `README`, a regular file inside the library) is not enumerated,
because the glob pattern `**/*.*` requires a dot in the base name. -/
theorem get_library_paths_misses_dotless :
    get_library_paths [FileEntry.mk ["Music", "README"] false] = [] := by decide

/-- C4 amended: enumeration yields exactly the entries (files and
directories, at any depth, hidden or zero-length included) whose base
name contains at least one '.' character; entries whose base name
contains no '.' are not enumerated. -/
theorem mem_get_library_paths_iff (entries : List FileEntry) (e : FileEntry) :
    e ∈ get_library_paths entries ↔ e ∈ entries ∧ '.' ∈ (file_name e).data := by
  unfold get_library_paths
  rw [List.mem_filter]
  exact and_congr_right (fun _ => globMatch_wildcard_iff _)

/-- C5: `is_resource_fork` returns true exactly on names of at least two
characters whose first two codepoints are '.' then '_'.  The byte-length
guard of the source cannot misclassify: a name whose first two codepoints
are `._` occupies at least two bytes, and a shorter name always fails one
of the per-codepoint checks (the totally-modelled `chars().nth(i)` lookups
also show no subscript panic is possible, multi-byte names included). -/
theorem is_resource_fork_iff (s : String) :
    is_resource_fork s = true ↔
      2 ≤ s.length ∧ s.data.take 2 = [RES_FORK_1, RES_FORK_2] := by
  obtain ⟨l⟩ := s
  rcases l with - | ⟨a, - | ⟨b, rest⟩⟩
  · decide
  · have hL : is_resource_fork (String.mk [a]) = false := by
      unfold is_resource_fork
      split
      · rfl
      · split
        · rfl
        · split
          · rfl
          · rename_i h3
            exfalso
            simp only [List.getD_cons_succ, List.getD_nil, ne_eq, not_not,
              NO_CHAR, RES_FORK_2] at h3
            exact absurd h3 (by decide)
    rw [hL]
    simp [String.length]
  · have h2 : ¬ utf8Length (String.mk (a :: b :: rest)) < 2 := by
      have ha := Char.utf8Size_pos a
      have hb := Char.utf8Size_pos b
      simp only [utf8Length, List.map_cons, List.sum_cons]
      omega
    unfold is_resource_fork
    rw [if_neg h2]
    by_cases ha : a = RES_FORK_1 <;> by_cases hb : b = RES_FORK_2 <;>
      simp [ha, hb, String.length, List.getD_cons_zero, List.getD_cons_succ,
        Nat.le_add_left]

/-! ## Lemmas about the filesystem primitives -/

/-- Erasing the key `p` from the file table does not affect lookup of any
other key. -/
theorem find?_filter_key_ne (files : List (FPath × String)) (p q : FPath)
    (h : q ≠ p) :
    (files.filter (fun kv => !(kv.1 == p))).find? (fun kv => kv.1 == q) =
      files.find? (fun kv => kv.1 == q) := by
  induction files with
  | nil => rfl
  | cons kv rest ih =>
    by_cases hp : kv.1 = p
    · have hq : (kv.1 == q) = false := beq_eq_false_iff_ne.2 (hp ▸ fun hc => h hc.symm)
      have hp' : (kv.1 == p) = true := beq_iff_eq.2 hp
      simp [List.filter_cons, List.find?_cons, hp', hq, ih]
    · have hp' : (kv.1 == p) = false := beq_eq_false_iff_ne.2 hp
      by_cases hq : kv.1 = q
      · have hq' : (kv.1 == q) = true := beq_iff_eq.2 hq
        simp [List.filter_cons, List.find?_cons, hp', hq']
      · have hq' : (kv.1 == q) = false := beq_eq_false_iff_ne.2 hq
        simp [List.filter_cons, List.find?_cons, hp', hq', ih]

/-- After `setFile`, the written path holds the written contents. -/
theorem find?_setFile_self (files : List (FPath × String)) (p : FPath) (c : String) :
    (setFile files p c).find? (fun kv => kv.1 == p) = some (p, c) := by
  simp [setFile, List.find?_cons]

/-- Directory creation never touches the file table. -/
theorem fsCreateDirAll_files (fs : FS) (p : FPath) :
    ((fsCreateDirAll fs p).2).files = fs.files := by
  unfold fsCreateDirAll
  split
  · rfl
  · split <;> rfl

/-- Directory creation leaves every file lookup unchanged. -/
theorem lookupFile_fsCreateDirAll (fs : FS) (p q : FPath) :
    ((fsCreateDirAll fs p).2).lookupFile q = fs.lookupFile q := by
  unfold FS.lookupFile
  rw [fsCreateDirAll_files]

/-- A path is among its own `take`-prefixes. -/
theorem self_mem_prefixesOf (p : FPath) : p ∈ prefixesOf p := by
  unfold prefixesOf
  exact List.mem_map.2 ⟨p.length, List.mem_range.2 (Nat.lt_succ_self _),
    List.take_length p⟩

/-- A successful `create_dir_all` on a non-empty path records it as a
directory. -/
theorem fsCreateDirAll_ok_isDir (fs : FS) (p : FPath) (r : Unit) (fs1 : FS) (hp : p ≠ [])
    (h : fsCreateDirAll fs p = (Except.ok r, fs1)) : fs1.isDir p = true := by
  unfold fsCreateDirAll at h
  rw [if_neg hp] at h
  split at h
  · cases h
  · injection h with h1 h2
    subst h2
    unfold FS.isDir
    exact List.elem_eq_true_of_mem (List.mem_append.2 (Or.inl (self_mem_prefixesOf p)))

/-- A failing copy leaves the filesystem unchanged. -/
theorem fsCopy_error_eq (fs : FS) (src tgt : FPath) (e : Unit) (fs1 : FS)
    (h : fsCopy fs src tgt = (Except.error e, fs1)) : fs1 = fs := by
  unfold fsCopy at h
  split at h
  · injection h with h1 h2
    exact h2.symm
  · split at h
    · injection h with h1 h2
      exact Except.noConfusion h1
    · injection h with h1 h2
      exact h2.symm

/-- A successful copy writes the source's contents at the target. -/
theorem fsCopy_ok_lookup (fs : FS) (src tgt : FPath) (r : Unit) (fs1 : FS)
    (h : fsCopy fs src tgt = (Except.ok r, fs1)) :
    fs1.lookupFile tgt = fs.lookupFile src := by
  unfold fsCopy at h
  split at h
  · injection h with h1 h2
    exact Except.noConfusion h1
  · rename_i c hc
    split at h
    · injection h with h1 h2
      subst h2
      have hset : FS.lookupFile { fs with files := setFile fs.files tgt c } tgt = some c := by
        simp [FS.lookupFile, find?_setFile_self]
      rw [hset, hc]
    · injection h with h1 h2
      exact Except.noConfusion h1

/-- A successful copy to a target other than `q` leaves the lookup of `q`
unchanged. -/
theorem fsCopy_ok_lookup_ne (fs : FS) (src tgt q : FPath) (r : Unit) (fs1 : FS)
    (hne : q ≠ tgt) (h : fsCopy fs src tgt = (Except.ok r, fs1)) :
    fs1.lookupFile q = fs.lookupFile q := by
  unfold fsCopy at h
  split at h
  · injection h with h1 h2
    exact Except.noConfusion h1
  · rename_i c hc
    split at h
    · injection h with h1 h2
      subst h2
      have hq : ((tgt, c).1 == q) = false := beq_eq_false_iff_ne.2 (fun hc2 => hne hc2.symm)
      simp [FS.lookupFile, setFile, List.find?_cons, hq, find?_filter_key_ne _ _ _ hne]
    · injection h with h1 h2
      exact Except.noConfusion h1

/-- A successful copy does not change the directory set. -/
theorem fsCopy_ok_dirs (fs : FS) (src tgt : FPath) (r : Unit) (fs1 : FS)
    (h : fsCopy fs src tgt = (Except.ok r, fs1)) : fs1.dirs = fs.dirs := by
  unfold fsCopy at h
  split at h
  · injection h with h1 h2
    exact Except.noConfusion h1
  · split at h
    · injection h with h1 h2
      subst h2
      rfl
    · injection h with h1 h2
      exact Except.noConfusion h1

/-- A successful copy implies the source was an existing file. -/
theorem fsCopy_ok_src_isFile (fs : FS) (src tgt : FPath) (r : Unit) (fs1 : FS)
    (h : fsCopy fs src tgt = (Except.ok r, fs1)) : fs.isFile src = true := by
  unfold fsCopy at h
  split at h
  · injection h with h1 h2
    exact Except.noConfusion h1
  · rename_i c hc
    simp [FS.isFile, hc]

/-- A successful copy implies its precondition: the target's parent
directory exists (or is the current directory) and no directory sits at
the target. -/
theorem fsCopy_ok_cond (fs : FS) (src tgt : FPath) (r : Unit) (fs1 : FS)
    (h : fsCopy fs src tgt = (Except.ok r, fs1)) :
    (parentDir tgt = [] ∨ fs.isDir (parentDir tgt) = true) ∧
      fs.isDir tgt = false := by
  unfold fsCopy at h
  split at h
  · injection h with h1 h2
    exact Except.noConfusion h1
  · split at h
    · rename_i hcond
      exact hcond
    · injection h with h1 h2
      exact Except.noConfusion h1

/-- Directory creation, stated on its result pair: file lookups are
unchanged. -/
theorem fsCreateDirAll_eq_lookup (fs : FS) (p q : FPath) (r : Except Unit Unit)
    (fs1 : FS) (h : fsCreateDirAll fs p = (r, fs1)) :
    fs1.lookupFile q = fs.lookupFile q := by
  have hf := fsCreateDirAll_files fs p
  rw [h] at hf
  have hf' : fs1.files = fs.files := hf
  unfold FS.lookupFile
  rw [hf']

/-- A failing deletion leaves the filesystem unchanged. -/
theorem fsRemoveFile_error_eq (fs : FS) (p : FPath) (e : Unit) (fs1 : FS)
    (h : fsRemoveFile fs p = (Except.error e, fs1)) : fs1 = fs := by
  unfold fsRemoveFile at h
  split at h
  · injection h with h1 h2
    exact Except.noConfusion h1
  · injection h with h1 h2
    exact h2.symm

/-- After a successful deletion the path no longer holds a file. -/
theorem fsRemoveFile_ok_gone (fs : FS) (p : FPath) (r : Unit) (fs1 : FS)
    (h : fsRemoveFile fs p = (Except.ok r, fs1)) : fs1.isFile p = false := by
  unfold fsRemoveFile at h
  split at h
  · injection h with h1 h2
    subst h2
    simp only [FS.isFile, FS.lookupFile]
    rw [List.find?_eq_none.2]
    · rfl
    · intro kv hkv
      have := (List.mem_filter.1 hkv).2
      simpa using this
  · injection h with h1 h2
    exact Except.noConfusion h1

/-- A successful deletion of `p` leaves the lookup of any other path
unchanged. -/
theorem fsRemoveFile_ok_lookup_ne (fs : FS) (p q : FPath) (r : Unit) (fs1 : FS)
    (hne : q ≠ p) (h : fsRemoveFile fs p = (Except.ok r, fs1)) :
    fs1.lookupFile q = fs.lookupFile q := by
  unfold fsRemoveFile at h
  split at h
  · injection h with h1 h2
    subst h2
    simp only [FS.lookupFile]
    rw [find?_filter_key_ne _ _ _ hne]
  · injection h with h1 h2
    exact Except.noConfusion h1

/-! ## Lemmas about `backup_file` -/

/-- A failing backup never touches the file table: the directory-creation
step only adds directories, and a failing copy changes nothing. -/
theorem backup_file_error_files (path lib bak : FPath) (fs : FS) (e : FPath)
    (fs1 : FS) (h : backup_file path lib bak fs = (Except.error e, fs1)) :
    fs1.files = fs.files := by
  simp only [backup_file] at h
  split at h
  · split at h
    · rename_i u fsm heqc
      injection h with h1 h2
      subst h2
      have hf := fsCreateDirAll_files fs
        (parentDir (bak ++ (stripPrefixOf path lib).getD []))
      rw [heqc] at hf
      exact hf
    · rename_i u fsm heqc
      split at h
      · injection h with h1 h2
        exact Except.noConfusion h1
      · rename_i u2 fs2 heq2
        injection h with h1 h2
        subst h2
        have hf := fsCreateDirAll_files fs
          (parentDir (bak ++ (stripPrefixOf path lib).getD []))
        rw [heqc] at hf
        rw [fsCopy_error_eq _ _ _ _ _ heq2]
        exact hf
  · split at h
    · injection h with h1 h2
      exact Except.noConfusion h1
    · rename_i u2 fs2 heq2
      injection h with h1 h2
      subst h2
      rw [fsCopy_error_eq _ _ _ _ _ heq2]

/-- A failing backup reports either the attempted target path or the
attempted target directory. -/
theorem backup_file_error_val (path lib bak : FPath) (fs : FS) (e : FPath)
    (fs1 : FS) (h : backup_file path lib bak fs = (Except.error e, fs1)) :
    e = bak ++ (stripPrefixOf path lib).getD [] ∨
      e = parentDir (bak ++ (stripPrefixOf path lib).getD []) := by
  simp only [backup_file] at h
  split at h
  · split at h
    · injection h with h1 h2
      injection h1 with h1
      exact Or.inr h1.symm
    · split at h
      · injection h with h1 h2
        exact Except.noConfusion h1
      · injection h with h1 h2
        injection h1 with h1
        exact Or.inl h1.symm
  · split at h
    · injection h with h1 h2
      exact Except.noConfusion h1
    · injection h with h1 h2
      injection h1 with h1
      exact Or.inl h1.symm

/-- A successful backup returns the mirrored target (backup root plus the
stripped relative path), which then holds the contents of the original;
the original existed, and no other path's lookup changes. -/
theorem backup_file_ok_spec (path lib bak : FPath) (fs : FS) (t : FPath)
    (fs1 : FS) (h : backup_file path lib bak fs = (Except.ok t, fs1)) :
    t = bak ++ (stripPrefixOf path lib).getD [] ∧
      fs1.lookupFile t = fs.lookupFile path ∧
      fs.isFile path = true ∧
      (∀ q, q ≠ t → fs1.lookupFile q = fs.lookupFile q) := by
  simp only [backup_file] at h
  split at h
  · split at h
    · injection h with h1 h2
      exact Except.noConfusion h1
    · rename_i u fsm heqc
      split at h
      · rename_i u2 fs2 heq2
        injection h with h1 h2
        injection h1 with h1
        subst h1
        subst h2
        refine ⟨rfl, ?_, ?_, ?_⟩
        · rw [fsCopy_ok_lookup _ _ _ _ _ heq2,
            fsCreateDirAll_eq_lookup _ _ path _ _ heqc]
        · have hsrc := fsCopy_ok_src_isFile _ _ _ _ _ heq2
          simp only [FS.isFile] at hsrc ⊢
          rw [← fsCreateDirAll_eq_lookup _ _ path _ _ heqc]
          exact hsrc
        · intro q hq
          rw [fsCopy_ok_lookup_ne _ _ _ _ _ _ hq heq2,
            fsCreateDirAll_eq_lookup _ _ q _ _ heqc]
      · injection h with h1 h2
        exact Except.noConfusion h1
  · split at h
    · rename_i u2 fs2 heq2
      injection h with h1 h2
      injection h1 with h1
      subst h1
      subst h2
      refine ⟨rfl, ?_, ?_, ?_⟩
      · rw [fsCopy_ok_lookup _ _ _ _ _ heq2]
      · exact fsCopy_ok_src_isFile _ _ _ _ _ heq2
      · intro q hq
        exact fsCopy_ok_lookup_ne _ _ _ _ _ _ hq heq2
    · injection h with h1 h2
      exact Except.noConfusion h1

/-- After a successful backup whose target directory is a real path (not
the current directory), that directory exists. -/
theorem backup_file_ok_parent_dir (path lib bak : FPath) (fs : FS) (t : FPath)
    (fs1 : FS) (hnil : parentDir (bak ++ (stripPrefixOf path lib).getD []) ≠ [])
    (h : backup_file path lib bak fs = (Except.ok t, fs1)) :
    fs1.isDir (parentDir t) = true := by
  simp only [backup_file] at h
  split at h
  · split at h
    · injection h with h1 h2
      exact Except.noConfusion h1
    · rename_i u fsm heqc
      split at h
      · rename_i u2 fs2 heq2
        injection h with h1 h2
        injection h1 with h1
        subst h1
        subst h2
        have hdir := fsCreateDirAll_ok_isDir fs _ _ _ hnil heqc
        have hds := fsCopy_ok_dirs _ _ _ _ _ heq2
        simp only [FS.isDir] at hdir ⊢
        rw [hds]
        exact hdir
      · injection h with h1 h2
        exact Except.noConfusion h1
  · split at h
    · rename_i u2 fs2 heq2
      injection h with h1 h2
      injection h1 with h1
      subst h1
      subst h2
      have hcond := fsCopy_ok_cond _ _ _ _ _ heq2
      have hds := fsCopy_ok_dirs _ _ _ _ _ heq2
      simp only [FS.isDir] at hcond ⊢
      rw [hds]
      rcases hcond.1 with hc | hc
      · exact absurd hc hnil
      · exact hc
    · injection h with h1 h2
      exact Except.noConfusion h1

/-- With both flags requested, the executor is literally "backup, then
delete": unfolding of `purge_or_backup_file` at `backup = purge = true`. -/
theorem purge_or_backup_file_tt (path lib bak : FPath) (fs : FS) :
    purge_or_backup_file path lib bak true true fs =
      match backup_file path lib bak fs with
      | (Except.error _, fs1) => (Except.error path, fs1)
      | (Except.ok _, fs1) =>
        match fsRemoveFile fs1 path with
        | (Except.error _, fs2) => (Except.error path, fs2)
        | (Except.ok _, fs2) => (Except.ok path, fs2) := by
  rfl

/-! ## Executor claim theorems -/

/-- C3: whenever the purge flag is false — backup root supplied or not —
the executor performs no filesystem mutation at all and returns success:
the state after the call is the state before it, so a simulated run
changes the existence and contents of no path. -/
theorem purge_or_backup_file_no_purge (path lib bak : FPath) (backup : Bool)
    (fs : FS) :
    purge_or_backup_file path lib bak backup false fs = (Except.ok path, fs) := by
  cases backup <;> rfl

/-- C2: with backup and purge both enabled the executor copies first.  A
backup failure aborts with an error and an unchanged file table (the
original is not deleted); after a successful backup a failing deletion
reports an error while the filesystem keeps the backup copy with the
original's contents; and only on a successful copy followed by a
successful deletion is the original gone. -/
theorem purge_or_backup_file_backup_first (path lib bak : FPath) (fs : FS) :
    (∀ e fs1, backup_file path lib bak fs = (Except.error e, fs1) →
      purge_or_backup_file path lib bak true true fs = (Except.error path, fs1) ∧
        fs1.files = fs.files) ∧
    (∀ t fs1 e2 fs2, backup_file path lib bak fs = (Except.ok t, fs1) →
      fsRemoveFile fs1 path = (Except.error e2, fs2) →
      purge_or_backup_file path lib bak true true fs = (Except.error path, fs2) ∧
        fs2 = fs1 ∧ fs2.lookupFile t = fs.lookupFile path) ∧
    (∀ t fs1 r2 fs2, backup_file path lib bak fs = (Except.ok t, fs1) →
      fsRemoveFile fs1 path = (Except.ok r2, fs2) →
      purge_or_backup_file path lib bak true true fs = (Except.ok path, fs2) ∧
        fs2.isFile path = false) := by
  refine ⟨?_, ?_, ?_⟩
  · intro e fs1 hb
    refine ⟨?_, backup_file_error_files _ _ _ _ _ _ hb⟩
    simp only [purge_or_backup_file_tt, hb]
  · intro t fs1 e2 fs2 hb hr
    refine ⟨?_, fsRemoveFile_error_eq _ _ _ _ hr, ?_⟩
    · simp only [purge_or_backup_file_tt, hb, hr]
    · obtain ⟨-, hlook, -, -⟩ := backup_file_ok_spec _ _ _ _ _ _ hb
      rw [fsRemoveFile_error_eq _ _ _ _ hr]
      exact hlook
  · intro t fs1 r2 fs2 hb hr
    refine ⟨?_, fsRemoveFile_ok_gone _ _ _ _ hr⟩
    simp only [purge_or_backup_file_tt, hb, hr]

/-- Witness for C2: three concrete runs against a one-file library — a
missing source (backup fails, state unchanged), an undeletable original
(backup succeeds, deletion fails, backup retained), and a clean run
(original gone). -/
theorem purge_or_backup_file_backup_first_witness :
    (purge_or_backup_file ["library", "x.au"] ["library"] ["backup"] true true
        (FS.mk [] [["backup"]] []) =
      (Except.error ["library", "x.au"], FS.mk [] [["backup"]] [])) ∧
    (purge_or_backup_file ["library", "x.au"] ["library"] ["backup"] true true
        (FS.mk [(["library", "x.au"], "song")] [["library"], ["backup"]]
          [["library", "x.au"]]) =
      (Except.error ["library", "x.au"],
        FS.mk [(["backup", "x.au"], "song"), (["library", "x.au"], "song")]
          [["library"], ["backup"]] [["library", "x.au"]])) ∧
    (purge_or_backup_file ["library", "x.au"] ["library"] ["backup"] true true
        (FS.mk [(["library", "x.au"], "song")] [["library"], ["backup"]] []) =
      (Except.ok ["library", "x.au"],
        FS.mk [(["backup", "x.au"], "song")] [["library"], ["backup"]] [])) := by
  refine ⟨?_, ?_, ?_⟩
  · exact ((purge_or_backup_file_backup_first ["library", "x.au"] ["library"]
      ["backup"] (FS.mk [] [["backup"]] [])).1 ["backup", "x.au"] _ rfl).1
  · exact ((purge_or_backup_file_backup_first ["library", "x.au"] ["library"]
      ["backup"] (FS.mk [(["library", "x.au"], "song")] [["library"], ["backup"]]
        [["library", "x.au"]])).2.1 ["backup", "x.au"] _ () _ rfl rfl).1
  · exact ((purge_or_backup_file_backup_first ["library", "x.au"] ["library"]
      ["backup"] (FS.mk [(["library", "x.au"], "song")] [["library"], ["backup"]]
        [])).2.2 ["backup", "x.au"] _ () _ rfl rfl).1

/-- C6: for a candidate strictly under the library root and a backup root
distinct from it, the backup target is the backup root joined with the
candidate's root-stripped relative path; on success the target's parent
directory exists and the target carries the candidate's contents, and
after a full backup+purge the mirrored file exists with the original's
contents while the original is gone. -/
theorem backup_mirror_spec (path lib bak : FPath) (fs : FS)
    (hpre : lib.isPrefixOf path = true) (hlen : lib.length < path.length)
    (hbak : bak ≠ []) (hbl : bak ≠ lib) :
    (∀ t fs1, backup_file path lib bak fs = (Except.ok t, fs1) →
      t = bak ++ path.drop lib.length ∧
        fs1.isDir (parentDir t) = true ∧
        fs1.lookupFile t = fs.lookupFile path) ∧
    (∀ fs2, purge_or_backup_file path lib bak true true fs = (Except.ok path, fs2) →
      fs2.isFile (bak ++ path.drop lib.length) = true ∧
        fs2.lookupFile (bak ++ path.drop lib.length) = fs.lookupFile path ∧
        fs2.isFile path = false) := by
  have hstrip : stripPrefixOf path lib = some (path.drop lib.length) := by
    unfold stripPrefixOf
    rw [if_pos hpre]
  have hgetD : (stripPrefixOf path lib).getD [] = path.drop lib.length := by
    rw [hstrip]
    rfl
  have hpref : lib <+: path := List.isPrefixOf_iff_prefix.1 hpre
  have hp : lib ++ path.drop lib.length = path := List.prefix_iff_eq_append.1 hpref
  have htne : bak ++ path.drop lib.length ≠ path := by
    intro hc
    refine hbl (List.append_cancel_right
      (show bak ++ path.drop lib.length = lib ++ path.drop lib.length from ?_))
    rw [hp]
    exact hc
  have h2 : 2 ≤ (bak ++ path.drop lib.length).length := by
    rw [List.length_append, List.length_drop]
    rcases bak with - | ⟨b0, brest⟩
    · exact absurd rfl hbak
    · simp only [List.length_cons]
      omega
  have hnil : parentDir (bak ++ (stripPrefixOf path lib).getD []) ≠ [] := by
    rw [hgetD]
    unfold parentDir
    intro hc
    have h3 := congrArg List.length hc
    rw [List.length_dropLast] at h3
    simp only [List.length_nil] at h3
    omega
  constructor
  · intro t fs1 h
    obtain ⟨ht, hlook, -, -⟩ := backup_file_ok_spec _ _ _ _ _ _ h
    rw [hgetD] at ht
    exact ⟨ht, backup_file_ok_parent_dir _ _ _ _ _ _ hnil h, hlook⟩
  · intro fs2 h
    rw [purge_or_backup_file_tt] at h
    rcases hb : backup_file path lib bak fs with ⟨r1, fs1⟩
    rcases r1 with e1 | t1
    · simp only [hb] at h
      injection h with h1 h2
      exact Except.noConfusion h1
    · simp only [hb] at h
      rcases hr : fsRemoveFile fs1 path with ⟨r2, fs2x⟩
      rcases r2 with e2 | u2
      · simp only [hr] at h
        injection h with h1 h2
        exact Except.noConfusion h1
      · simp only [hr] at h
        injection h with h1 h2
        subst h2
        obtain ⟨ht, hlook, hsrc, -⟩ := backup_file_ok_spec _ _ _ _ _ _ hb
        rw [hgetD] at ht
        subst ht
        have hq := fsRemoveFile_ok_lookup_ne fs1 path _ _ _ htne hr
        refine ⟨?_, ?_, fsRemoveFile_ok_gone _ _ _ _ hr⟩
        · simp only [FS.isFile] at hsrc ⊢
          rw [hq, hlook]
          exact hsrc
        · rw [hq, hlook]

/-- Witness for C6: a file `library/sub/x.au` backed up under `backup/`,
with the intermediate directory `backup/sub` created on the way. -/
theorem backup_mirror_spec_witness :
    ((["backup", "sub", "x.au"] : FPath) =
        ["backup"] ++ List.drop 1 ["library", "sub", "x.au"] ∧
      (FS.mk [(["backup", "sub", "x.au"], "tune"), (["library", "sub", "x.au"], "tune")]
          [[], ["backup"], ["backup", "sub"], ["library"], ["library", "sub"], ["backup"]]
          []).isDir (parentDir ["backup", "sub", "x.au"]) = true ∧
      (FS.mk [(["backup", "sub", "x.au"], "tune"), (["library", "sub", "x.au"], "tune")]
          [[], ["backup"], ["backup", "sub"], ["library"], ["library", "sub"], ["backup"]]
          []).lookupFile ["backup", "sub", "x.au"] =
        (FS.mk [(["library", "sub", "x.au"], "tune")]
          [["library"], ["library", "sub"], ["backup"]] []).lookupFile
          ["library", "sub", "x.au"]) ∧
    ((FS.mk [(["backup", "sub", "x.au"], "tune")]
        [[], ["backup"], ["backup", "sub"], ["library"], ["library", "sub"], ["backup"]]
        []).isFile (["backup"] ++ List.drop 1 ["library", "sub", "x.au"]) = true ∧
      (FS.mk [(["backup", "sub", "x.au"], "tune")]
        [[], ["backup"], ["backup", "sub"], ["library"], ["library", "sub"], ["backup"]]
        []).lookupFile (["backup"] ++ List.drop 1 ["library", "sub", "x.au"]) =
        (FS.mk [(["library", "sub", "x.au"], "tune")]
          [["library"], ["library", "sub"], ["backup"]] []).lookupFile
          ["library", "sub", "x.au"] ∧
      (FS.mk [(["backup", "sub", "x.au"], "tune")]
        [[], ["backup"], ["backup", "sub"], ["library"], ["library", "sub"], ["backup"]]
        []).isFile ["library", "sub", "x.au"] = false) := by
  constructor
  · exact (backup_mirror_spec ["library", "sub", "x.au"] ["library"] ["backup"]
      (FS.mk [(["library", "sub", "x.au"], "tune")]
        [["library"], ["library", "sub"], ["backup"]] [])
      rfl (by decide) (by decide) (by decide)).1 ["backup", "sub", "x.au"] _ rfl
  · exact (backup_mirror_spec ["library", "sub", "x.au"] ["library"] ["backup"]
      (FS.mk [(["library", "sub", "x.au"], "tune")]
        [["library"], ["library", "sub"], ["backup"]] [])
      rfl (by decide) (by decide) (by decide)).2 _ rfl

/-- C10: when prefix stripping fails (the candidate is not under the
library root), `backup_file` silently substitutes the empty relative path,
so the attempted copy target is the backup root itself: a success returns
the backup root (now holding the candidate's contents) and a failure
reports the backup root or its parent — never an unmappable-path error. -/
theorem backup_file_unmapped_root (path lib bak : FPath) (fs : FS)
    (h : stripPrefixOf path lib = none) :
    (∀ t fs1, backup_file path lib bak fs = (Except.ok t, fs1) →
      t = bak ∧ fs1.lookupFile bak = fs.lookupFile path) ∧
    (∀ e fs1, backup_file path lib bak fs = (Except.error e, fs1) →
      e = bak ∨ e = parentDir bak) := by
  have hgetD : (stripPrefixOf path lib).getD [] = [] := by
    rw [h]
    rfl
  constructor
  · intro t fs1 hb
    obtain ⟨ht, hlook, -, -⟩ := backup_file_ok_spec _ _ _ _ _ _ hb
    rw [hgetD, List.append_nil] at ht
    subst ht
    exact ⟨rfl, hlook⟩
  · intro e fs1 hb
    have hv := backup_file_error_val _ _ _ _ _ _ hb
    rw [hgetD, List.append_nil] at hv
    exact hv

/-- Witness for C10: a candidate outside the library; the copy targets
the backup root itself (succeeding when nothing sits there, failing with
the backup root as the reported path when the root directory exists). -/
theorem backup_file_unmapped_root_witness :
    ((["backup"] : FPath) = ["backup"] ∧
      (FS.mk [(["backup"], "z"), (["elsewhere", "y.au"], "z")] [] []).lookupFile
          ["backup"] =
        (FS.mk [(["elsewhere", "y.au"], "z")] [] []).lookupFile
          ["elsewhere", "y.au"]) ∧
    ((["backup"] : FPath) = ["backup"] ∨ (["backup"] : FPath) = parentDir ["backup"]) := by
  constructor
  · exact (backup_file_unmapped_root ["elsewhere", "y.au"] ["library"] ["backup"]
      (FS.mk [(["elsewhere", "y.au"], "z")] [] []) rfl).1 ["backup"] _ rfl
  · exact (backup_file_unmapped_root ["elsewhere", "y.au"] ["library"] ["backup"]
      (FS.mk [(["elsewhere", "y.au"], "z")] [["backup"]] []) rfl).2 ["backup"] _ rfl

end Mlcp
